import Mathlib

/-!
Verification of the pw_software_update bundle verifier
(`pw_software_update/update_bundle_accessor.cc`) against its natural-language
specification.

The development is a shallow embedding: each C++ function of the source file
is translated into an executable Lean definition over explicit data.  Lazy
protobuf field accessors become `Option`-valued fields (a `none` models an
absent or unreadable singular field; repeated fields and maps, whose accessors
do not fail on absence, become plain lists).  The cryptographic primitives
(SHA-256 over a byte interval, ECDSA-P256 verification) are opaque to the
verifier and are passed in as function parameters.  Status codes mirror
`pw::Status`.
-/

set_option autoImplicit false

namespace Pw

/-- The subset of `pw::Status` codes produced or consumed by the verifier. -/
inductive Status where
  | ok
  | unknown
  | notFound
  | unauthenticated
  | internal
  | failedPrecondition
  | outOfRange
  | resourceExhausted
deriving DecidableEq, Repr

/-- A TUF `Signature` message: `{key_id: bytes, sig: bytes}`.  Both are
singular proto fields, hence `Option`: an absent field makes the
corresponding accessor fail. -/
structure Signature where
  key_id : Option (List Nat)
  sig : Option (List Nat)
deriving DecidableEq, Repr

/-- A TUF `Key` message.  The verifier only ever reads the `keyval` field
(the 65-byte uncompressed ECDSA-P256 public key). -/
structure Key where
  keyval : Option (List Nat)
deriving DecidableEq, Repr

/-- A `SignatureRequirement`: `{threshold: uint32, key_ids: repeated bytes}`.
`threshold` is a singular scalar field; `key_ids` is repeated. -/
structure SignatureRequirement where
  threshold : Option Nat
  key_ids : List (List Nat)
deriving DecidableEq, Repr

/-- `CommonMetadata`, of which the verifier reads only `version`. -/
structure CommonMetadata where
  version : Option Nat
deriving DecidableEq, Repr

/-- A parsed `RootMetadata` view.  `bytes` are the raw serialized bytes of
the field that carries it (the exact interval over which root signatures are
computed). -/
structure RootMetadata where
  bytes : List Nat
  common_metadata : Option CommonMetadata
  keys : List (List Nat × Key)
  root_signature_requirement : Option SignatureRequirement
  targets_signature_requirement : Option SignatureRequirement
deriving DecidableEq, Repr

/-- A `SignedRootMetadata` message: the serialized root metadata plus a list
of signatures.  `bytes` are the raw bytes of the whole signed message (what
`ToBytes()` yields and what gets persisted). -/
structure SignedRootMetadata where
  bytes : List Nat
  serialized_root_metadata : Option RootMetadata
  signatures : List Signature
deriving DecidableEq, Repr

/-- A `Hash` message: `{function: enum, hash: bytes}`. -/
structure TargetHash where
  function : Option Nat
  hash : Option (List Nat)
deriving DecidableEq, Repr

/-- A `TargetFile`: `{file_name: string, length: uint64, hashes: repeated Hash}`. -/
structure TargetFile where
  file_name : Option (List Nat)
  length : Option Nat
  hashes : List TargetHash
deriving DecidableEq, Repr

/-- A parsed `TargetsMetadata` view, with the raw serialized bytes over which
targets signatures are computed. -/
structure TargetsMetadata where
  bytes : List Nat
  common_metadata : Option CommonMetadata
  target_files : List TargetFile
deriving DecidableEq, Repr

/-- A `SignedTargetsMetadata` message. -/
structure SignedTargetsMetadata where
  serialized_targets_metadata : Option TargetsMetadata
  signatures : List Signature
deriving DecidableEq, Repr

/-- The top-level `UpdateBundle` message. -/
structure UpdateBundle where
  root_metadata : Option SignedRootMetadata
  targets_metadata : List (List Nat × SignedTargetsMetadata)
  target_payloads : List (List Nat × List Nat)
deriving DecidableEq, Repr

/-- Modelled from the spec: the on-device manifest as exposed by
`ManifestAccessor` (`manifest_accessor.h`, whose implementation is not part
of the source file under study): the authenticated targets view, carrying the
targets version and the list of target files. -/
structure DeviceManifest where
  version : Option Nat
  target_files : List TargetFile
deriving DecidableEq, Repr

/-- The backend collaborator, collapsed to the responses the verifier
observes: the on-device trusted root (`GetRootMetadataReader`), the on-device
manifest (`BeforeManifestRead`/`GetManifestReader`, an `Except.error .notFound`
modelling an absent manifest), and the status of `SafelyPersistRootMetadata`. -/
structure Backend where
  on_device_root : Except Status SignedRootMetadata
  device_manifest : Except Status DeviceManifest
  persist_root : Status

/-- Compile-time configuration recognized by the verifier, plus the
`disable_verification_` member selecting self-verification mode. -/
structure Config where
  disable_bundle_verification : Bool
  disable_verification : Bool
  with_personalization : Bool
  max_target_name_length : Nat
  max_target_payload_size : Nat

/-- Modelled from the spec: the `HashFunction.SHA256` enum value of the proto
definition (`update_bundle.proto`, not part of the source file under study). -/
def kSha256 : Nat := 1

/-- The well-known top-level targets metadata key, the bytes of the string
of the seven letters t a r g e t s. -/
def kTopLevelTargetsName : List Nat := [116, 97, 114, 103, 101, 116, 115]

/-- First-match lookup in a string-keyed proto map, as performed by the
`operator[]` of the streaming proto map accessors (duplicate keys resolve to
the first occurrence). -/
def lookupMap {α : Type} : List (List Nat × α) → List Nat → Option α
  | [], _ => none
  | (k, v) :: rest, key => if k = key then some v else lookupMap rest key

/-- `GetMetadataVersion`: extract `common_metadata.version`, failing if either
nesting level is absent. -/
def getMetadataVersion (cm : Option CommonMetadata) : Except Status Nat :=
  match cm with
  | none => Except.error Status.notFound
  | some c =>
    match c.version with
    | none => Except.error Status.notFound
    | some v => Except.ok v

/-- The per-signature loop of `VerifyMetadataSignatures`.  `ecdsaVerify` takes
(keyval, digest, sig); `sha` digests the message bytes.  `message` is the
byte interval being authenticated; it is an `Except` because the source hands
the loop a lazy view whose error, if any, only surfaces when the digest is
taken (which happens only for signatures that get past the allow-list).

The key id is read into a fixed 32-byte buffer and the whole verification
fails with `internal` if its size is not exactly 32.  Modelled from the spec
for the stream-read part: the `pw_stream` read semantics are not part of the
source file under study; per the spec a key id is exactly 32 bytes. -/
def vmsGo (ecdsaVerify : List Nat → List Nat → List Nat → Bool)
    (sha : List Nat → List Nat) (message : Except Status (List Nat))
    (t : Nat) (kids : List (List Nat)) (km : List (List Nat × Key)) :
    List Signature → Nat → Status
  | [], _ => Status.unauthenticated
  | s :: rest, verified =>
    match s.key_id with
    | none => Status.notFound
    | some kid =>
      if kid.length ≠ 32 then Status.internal
      else if kid ∈ kids then
        match s.sig with
        | none => Status.notFound
        | some sg =>
          match lookupMap km kid with
          | none => Status.notFound
          | some k =>
            match k.keyval with
            | none => Status.notFound
            | some kv =>
              match message with
              | Except.error e => e
              | Except.ok msg =>
                if ecdsaVerify kv (sha msg) sg then
                  if verified + 1 = t then Status.ok
                  else vmsGo ecdsaVerify sha message t kids km rest (verified + 1)
                else vmsGo ecdsaVerify sha message t kids km rest verified
      else vmsGo ecdsaVerify sha message t kids km rest verified

/-- `VerifyMetadataSignatures`: read the threshold, then scan the signatures;
an empty signature list yields the `notFound` sentinel (this is how self
verification tells unsigned bundles apart). -/
def verifyMetadataSignatures (ecdsaVerify : List Nat → List Nat → List Nat → Bool)
    (sha : List Nat → List Nat) (message : Except Status (List Nat))
    (sigs : List Signature) (req : SignatureRequirement)
    (km : List (List Nat × Key)) : Status :=
  match req.threshold with
  | none => Status.notFound
  | some t =>
    if sigs = [] then Status.notFound
    else vmsGo ecdsaVerify sha message t req.key_ids km sigs 0

/-- Whether a signature counts toward the threshold: 32-byte key id, key id
on the allow list, a key mapping entry with a key value, and a passing ECDSA
verification of the message digest. -/
def sigAccepted (ecdsaVerify : List Nat → List Nat → List Nat → Bool)
    (sha : List Nat → List Nat) (msg : List Nat) (kids : List (List Nat))
    (km : List (List Nat × Key)) (s : Signature) : Bool :=
  match s.key_id with
  | none => false
  | some kid =>
    if kid.length ≠ 32 then false
    else if kid ∈ kids then
      match s.sig with
      | none => false
      | some sg =>
        match lookupMap km kid with
        | none => false
        | some k =>
          match k.keyval with
          | none => false
          | some kv => ecdsaVerify kv (sha msg) sg
    else false

/-- The number of signatures in a list that count toward the threshold. -/
def countAccepted (ecdsaVerify : List Nat → List Nat → List Nat → Bool)
    (sha : List Nat → List Nat) (msg : List Nat) (kids : List (List Nat))
    (km : List (List Nat × Key)) (sigs : List Signature) : Nat :=
  sigs.countP (sigAccepted ecdsaVerify sha msg kids km)

/-- A signature is well-formed when its key id is present and 32 bytes long
and, if the key id is on the allow list, the signature bytes are present and
the key mapping supplies a key value.  Processing a well-formed signature
never aborts the scan. -/
def sigWellFormed (kids : List (List Nat)) (km : List (List Nat × Key))
    (s : Signature) : Prop :=
  match s.key_id with
  | none => False
  | some kid =>
    kid.length = 32 ∧
      (kid ∈ kids →
        s.sig.isSome = true ∧
          ∃ k, lookupMap km kid = some k ∧ k.keyval.isSome = true)

/-- `VerifyRootMetadataSignatures`: verify the signatures of a signed new
root metadata against a given (trusted) root: the key mapping and the root
signature requirement come from the trusted root, the signatures and the
signed byte interval from the new root.  The source can only ever produce
`Except.ok true` or an error status; the dead `false` value is kept to
mirror the `Result<bool>` of the source. -/
def verifyRootMetadataSignatures (ecdsaVerify : List Nat → List Nat → List Nat → Bool)
    (sha : List Nat → List Nat) (trusted_root new_root : SignedRootMetadata) :
    Except Status Bool :=
  match trusted_root.serialized_root_metadata with
  | none => Except.error Status.notFound
  | some trusted =>
    match new_root.serialized_root_metadata with
    | none => Except.error Status.notFound
    | some serialized =>
      match trusted.root_signature_requirement with
      | none => Except.error Status.notFound
      | some req =>
        match verifyMetadataSignatures ecdsaVerify sha (Except.ok serialized.bytes)
            new_root.signatures req trusted.keys with
        | Status.ok => Except.ok true
        | e => Except.error e

/-- The incoming root metadata of the bundle, with the status of an absent
field. -/
def newRootOf (b : UpdateBundle) : Except Status SignedRootMetadata :=
  match b.root_metadata with
  | none => Except.error Status.notFound
  | some r => Except.ok r

/-- The trust anchor chosen and cached at the start of `UpgradeRoot`: the
bundle's own root in self-verification mode, the on-device root otherwise. -/
def chosenTrustedRoot (cfg : Config) (bk : Backend) (b : UpdateBundle) :
    Except Status SignedRootMetadata :=
  if cfg.disable_verification then newRootOf b else bk.on_device_root

/-- The observable outcome of `UpgradeRoot`: its returned status, the cached
`trusted_root_` member, and the byte string handed to
`SafelyPersistRootMetadata` if that backend call was made. -/
structure RootState where
  status : Status
  trusted_root : Except Status SignedRootMetadata
  persisted : Option (List Nat)

/-- `UpdateBundleAccessor::UpgradeRoot`, stage by stage: cache the trust
anchor; succeed trivially if the bundle carries no new root; require a valid
anchor; verify the new root under the anchor and under itself; enforce root
version monotonicity; in normal mode persist the new root bytes through the
backend. -/
def upgradeRoot (cfg : Config) (ecdsaVerify : List Nat → List Nat → List Nat → Bool)
    (sha : List Nat → List Nat) (bk : Backend) (b : UpdateBundle) : RootState :=
  let self_verifying := cfg.disable_verification
  let trusted := chosenTrustedRoot cfg bk b
  match b.root_metadata with
  | none => ⟨Status.ok, trusted, none⟩
  | some nr =>
    match trusted with
    | Except.error e => ⟨e, trusted, none⟩
    | Except.ok tr =>
      match verifyRootMetadataSignatures ecdsaVerify sha tr nr with
      | Except.error e => ⟨e, trusted, none⟩
      | Except.ok false => ⟨Status.unauthenticated, trusted, none⟩
      | Except.ok true =>
          match verifyRootMetadataSignatures ecdsaVerify sha nr nr with
          | Except.error e => ⟨e, trusted, none⟩
          | Except.ok false => ⟨Status.unauthenticated, trusted, none⟩
          | Except.ok true =>
              match tr.serialized_root_metadata with
              | none => ⟨Status.notFound, trusted, none⟩
              | some trc =>
                match getMetadataVersion trc.common_metadata with
                | Except.error e => ⟨e, trusted, none⟩
                | Except.ok tv =>
                  match nr.serialized_root_metadata with
                  | none => ⟨Status.notFound, trusted, none⟩
                  | some nrc =>
                    match getMetadataVersion nrc.common_metadata with
                    | Except.error e => ⟨e, trusted, none⟩
                    | Except.ok nv =>
                      if tv > nv then ⟨Status.unauthenticated, trusted, none⟩
                      else if self_verifying then ⟨Status.ok, trusted, none⟩
                      else if bk.persist_root = Status.ok then
                        ⟨Status.ok, trusted, some nr.bytes⟩
                      else ⟨bk.persist_root, trusted, some nr.bytes⟩

/-- The byte interval of the serialized top-level targets metadata, as the
lazy `ToBytes()` view handed to the signature verifier: the error of an
absent field surfaces only inside the verifier. -/
def serializedTargetsBytes (stm : SignedTargetsMetadata) : Except Status (List Nat) :=
  match stm.serialized_targets_metadata with
  | none => Except.error Status.notFound
  | some tm => Except.ok tm.bytes

/-- `UpdateBundleAccessor::VerifyTargetsMetadata`: verify the top-level
targets metadata under the current trust anchor, then (in normal mode only)
run the targets anti-rollback check against the on-device manifest.  The
on-device manifest version is read through `ManifestAccessor::GetVersion`;
that accessor is modelled from the spec (its implementation is not part of
the source file under study) as the manifest's targets version. -/
def verifyTargetsMetadata (cfg : Config)
    (ecdsaVerify : List Nat → List Nat → List Nat → Bool)
    (sha : List Nat → List Nat) (bk : Backend) (b : UpdateBundle)
    (trusted_root : Except Status SignedRootMetadata) : Status :=
  let self_verifying := cfg.disable_verification
  match trusted_root with
  | Except.error e => if self_verifying then Status.ok else e
  | Except.ok troot =>
    match lookupMap b.targets_metadata kTopLevelTargetsName with
    | none => Status.notFound
    | some stm =>
      match troot.serialized_root_metadata with
      | none => Status.notFound
      | some trusted =>
        match trusted.targets_signature_requirement with
        | none => Status.notFound
        | some req =>
          let sig_res := verifyMetadataSignatures ecdsaVerify sha
            (serializedTargetsBytes stm) stm.signatures req trusted.keys
          if self_verifying = true ∧ sig_res = Status.notFound then Status.ok
          else if sig_res ≠ Status.ok then sig_res
          else if self_verifying then Status.ok
          else
            match bk.device_manifest with
            | Except.error e => if e = Status.notFound then Status.ok else e
            | Except.ok dm =>
              match dm.version with
              | none => Status.notFound
              | some cur =>
                match stm.serialized_targets_metadata with
                | none => Status.notFound
                | some tm =>
                  match getMetadataVersion tm.common_metadata with
                  | Except.error e => e
                  | Except.ok newv =>
                    if cur > newv then Status.unauthenticated else Status.ok

/-- Modelled from the spec: `ManifestAccessor::FromBundle` (implementation
not part of the source file under study) exposes the bundle's own manifest:
the top-level targets metadata found under the well-known key, failing when
the entry or its serialized metadata is absent. -/
def manifestFromBundle (b : UpdateBundle) : Except Status TargetsMetadata :=
  match lookupMap b.targets_metadata kTopLevelTargetsName with
  | none => Except.error Status.notFound
  | some stm =>
    match stm.serialized_targets_metadata with
    | none => Except.error Status.notFound
    | some tm => Except.ok tm

/-- First-match scan of a target file list by file name. -/
def listFindTarget : List TargetFile → List Nat → Option TargetFile
  | [], _ => none
  | t :: rest, nm => if t.file_name = some nm then some t else listFindTarget rest nm

/-- Modelled from the spec: `ManifestAccessor::GetTargetFile` (implementation
not part of the source file under study) returns the first manifest entry
with the given file name; duplicates take the first occurrence. -/
def findCachedTarget (dm : DeviceManifest) (name : List Nat) : Option TargetFile :=
  listFindTarget dm.target_files name

/-- The SHA-256 entry scan over a `hashes` list shared by
`VerifyTargetsPayloads` and `VerifyOutOfBundleTargetPayload`: find the first
hash whose `function` field is SHA256 and yield its `hash` bytes; absence of
any such entry, of a `function` field or of the `hash` bytes is a failure. -/
def findSha256 : List TargetHash → Except Status (List Nat)
  | [] => Except.error Status.notFound
  | h :: rest =>
    match h.function with
    | none => Except.error Status.notFound
    | some f =>
      if f = kSha256 then
        match h.hash with
        | none => Except.error Status.notFound
        | some bs => Except.ok bs
      else findSha256 rest

/-- Bytes as they land in a zero-initialized 32-byte stack buffer.  Modelled
from the spec for the stream-read part (the `pw_stream` read semantics are
not part of the source file under study): at most 32 bytes are read and the
rest of the buffer keeps its zeros; for the fixed-width 32-byte hashes the
spec prescribes, this is the identity. -/
def readIntoBuf32 (bs : List Nat) : List Nat :=
  bs.take 32 ++ List.replicate (32 - bs.length) 0

/-- `UpdateBundleAccessor::VerifyInBundleTargetPayload`: measure the
in-bundle payload; a length or SHA-256 digest mismatch is
`unauthenticated`. -/
def verifyInBundleTargetPayload (sha : List Nat → List Nat)
    (expected_length : Nat) (expected_sha256 : List Nat)
    (payload : List Nat) : Status :=
  if payload.length ≠ expected_length then Status.unauthenticated
  else if expected_sha256 ≠ sha payload then Status.unauthenticated
  else Status.ok

/-- `UpdateBundleAccessor::VerifyOutOfBundleTargetPayload`: with
personalization compiled in, fall back to the cached measurement in the
on-device manifest; without it, a missing payload is `unauthenticated`. -/
def verifyOutOfBundleTargetPayload (cfg : Config) (bk : Backend)
    (name : List Nat) (expected_length : Nat) (expected_sha256 : List Nat) : Status :=
  if cfg.with_personalization then
    match bk.device_manifest with
    | Except.error _ => Status.unauthenticated
    | Except.ok dm =>
      match findCachedTarget dm name with
      | none => Status.unauthenticated
      | some cached =>
        match cached.length with
        | none => Status.notFound
        | some clen =>
          if clen ≠ expected_length then Status.unauthenticated
          else
            match findSha256 cached.hashes with
            | Except.error e => e
            | Except.ok csha =>
              if expected_sha256 ≠ readIntoBuf32 csha then Status.unauthenticated
              else Status.ok
  else Status.unauthenticated

/-- `UpdateBundleAccessor::VerifyTargetPayload`: dispatch on whether the
payload is present in the bundle's `target_payloads` map. -/
def verifyTargetPayload (cfg : Config) (sha : List Nat → List Nat)
    (bk : Backend) (b : UpdateBundle) (name : List Nat) (len : Nat)
    (sha256 : List Nat) : Status :=
  match lookupMap b.target_payloads name with
  | some payload => verifyInBundleTargetPayload sha len sha256 payload
  | none => verifyOutOfBundleTargetPayload cfg bk name len sha256

/-- The per-target loop of `UpdateBundleAccessor::VerifyTargetsPayloads`. -/
def verifyTargetsPayloadsLoop (cfg : Config) (sha : List Nat → List Nat)
    (bk : Backend) (b : UpdateBundle) : List TargetFile → Status
  | [] => Status.ok
  | t :: rest =>
    match t.file_name with
    | none => Status.notFound
    | some name =>
      if name.length > cfg.max_target_name_length then Status.resourceExhausted
      else
        match t.length with
        | none => Status.notFound
        | some len =>
          if len > cfg.max_target_payload_size then Status.outOfRange
          else
            match findSha256 t.hashes with
            | Except.error e => e
            | Except.ok sha256 =>
              let st := verifyTargetPayload cfg sha bk b name len sha256
              if st = Status.ok then verifyTargetsPayloadsLoop cfg sha bk b rest
              else st

/-- `UpdateBundleAccessor::VerifyTargetsPayloads`: verify length and SHA-256
for each file listed in the bundle manifest. -/
def verifyTargetsPayloads (cfg : Config) (sha : List Nat → List Nat)
    (bk : Backend) (b : UpdateBundle) : Status :=
  match manifestFromBundle b with
  | Except.error e => e
  | Except.ok tm => verifyTargetsPayloadsLoop cfg sha bk b tm.target_files

/-- The observable outcome of `DoVerify`: the returned status, the
`bundle_verified_` latch, the cached trust anchor and the root persistence
event of the run. -/
structure VerifyResult where
  status : Status
  bundle_verified : Bool
  trusted_root : Except Status SignedRootMetadata
  persisted : Option (List Nat)

/-- `UpdateBundleAccessor::DoVerify`: with bundle verification compiled out,
a log-and-pass no-op that sets the latch; otherwise the latch is cleared and
the three stages run in order, the latch being set only when all of them
succeed. -/
def doVerify (cfg : Config) (ecdsaVerify : List Nat → List Nat → List Nat → Bool)
    (sha : List Nat → List Nat) (bk : Backend) (b : UpdateBundle) : VerifyResult :=
  if cfg.disable_bundle_verification then
    ⟨Status.ok, true, Except.error Status.unknown, none⟩
  else
    let rs := upgradeRoot cfg ecdsaVerify sha bk b
    if rs.status = Status.ok then
      let ts := verifyTargetsMetadata cfg ecdsaVerify sha bk b rs.trusted_root
      if ts = Status.ok then
        let ps := verifyTargetsPayloads cfg sha bk b
        if ps = Status.ok then ⟨Status.ok, true, rs.trusted_root, rs.persisted⟩
        else ⟨ps, false, rs.trusted_root, rs.persisted⟩
      else ⟨ts, false, rs.trusted_root, rs.persisted⟩
    else ⟨rs.status, false, rs.trusted_root, rs.persisted⟩

/-- `UpdateBundleAccessor::GetManifest`: `failedPrecondition` until the
bundle has passed verification, then the bundle manifest view. -/
def getManifest (bundle_verified : Bool) (b : UpdateBundle) :
    Except Status TargetsMetadata :=
  if bundle_verified = false then Except.error Status.failedPrecondition
  else manifestFromBundle b

/-- The summation loop of `UpdateBundleAccessor::GetTotalPayloadSize`:
entries whose payload is absent from the bundle are skipped; present entries
add their `length` field to the running 64-bit total. -/
def sumLoop (cfg : Config) (b : UpdateBundle) : List TargetFile → Nat → Except Status Nat
  | [], acc => Except.ok acc
  | t :: rest, acc =>
    match t.file_name with
    | none => Except.error Status.notFound
    | some name =>
      if name.length > cfg.max_target_name_length then Except.error Status.outOfRange
      else if (lookupMap b.target_payloads name).isSome then
        match t.length with
        | none => Except.error Status.notFound
        | some len => sumLoop cfg b rest ((acc + len) % 2 ^ 64)
      else sumLoop cfg b rest acc

/-- `UpdateBundleAccessor::GetTotalPayloadSize`.  The source reads the
`total_bytes` accumulator without initializing it; following the spec, the
sum starts at 0. -/
def getTotalPayloadSize (bundle_verified : Bool) (cfg : Config)
    (b : UpdateBundle) : Except Status Nat :=
  match getManifest bundle_verified b with
  | Except.error e => Except.error e
  | Except.ok tm => sumLoop cfg b tm.target_files 0

/-- The accessor state the facade claims are about: the
`bundle_verified_` latch. -/
structure AccessorState where
  bundle_verified : Bool

/-- `UpdateBundleAccessor::Close`: clears the latch (and releases the
backing reader, which has no observable counterpart here). -/
def closeAccessor (_ : AccessorState) : AccessorState :=
  { bundle_verified := false }

/-- The spec's description of `GetTotalPayloadSize`, written from its words:
the sum of `length` over manifest entries whose payloads are present in the
bundle, starting at 0. -/
def presentPayloadSum (b : UpdateBundle) : List TargetFile → Nat
  | [] => 0
  | t :: rest =>
    match t.file_name, t.length with
    | some name, some len =>
      if (lookupMap b.target_payloads name).isSome then len + presentPayloadSum b rest
      else presentPayloadSum b rest
    | _, _ => presentPayloadSum b rest

/-! Concrete inputs used by the witness and counterexample theorems below.
The trivially accepting signature checker and the constant digest stand in
for the abstract crypto parameters; they let the control flow of the
verifier be evaluated on closed inputs. -/

/-- An ECDSA checker that accepts every signature. -/
def exAcceptAll : List Nat → List Nat → List Nat → Bool := fun _ _ _ => true

/-- A digest function that maps every message to 32 zero bytes. -/
def exShaZero : List Nat → List Nat := fun _ => List.replicate 32 0

/-- A 32-byte key id. -/
def exKid : List Nat := List.replicate 32 1

/-- A key mapping entry for `exKid`. -/
def exKey : Key := { keyval := some [7] }

/-- A key mapping with the single entry for `exKid`. -/
def exKeyMap : List (List Nat × Key) := [(exKid, exKey)]

/-- A signature by `exKid`. -/
def exSigValid : Signature := { key_id := some exKid, sig := some [9] }

/-- A signature whose key id is only one byte long. -/
def exSigShortId : Signature := { key_id := some [1], sig := some [9] }

/-- Requirement: threshold 1, allowed key `exKid`. -/
def exReq1 : SignatureRequirement := { threshold := some 1, key_ids := [exKid] }

/-- Requirement with the degenerate threshold 0. -/
def exReq0 : SignatureRequirement := { threshold := some 0, key_ids := [exKid] }

/-- Requirement whose threshold 2 exceeds its single allowed key id. -/
def exReq2 : SignatureRequirement := { threshold := some 2, key_ids := [exKid] }

/-- A root metadata content at version 1 trusting `exKid` for both roles. -/
def exRootMeta : RootMetadata :=
  { bytes := [1]
    common_metadata := some { version := some 1 }
    keys := exKeyMap
    root_signature_requirement := some exReq1
    targets_signature_requirement := some exReq1 }

/-- The same content at version 2 (an upgraded root). -/
def exRootMeta2 : RootMetadata :=
  { bytes := [4]
    common_metadata := some { version := some 2 }
    keys := exKeyMap
    root_signature_requirement := some exReq1
    targets_signature_requirement := some exReq1 }

/-- An on-device trusted root carrying `exRootMeta`. -/
def exTroot : SignedRootMetadata :=
  { bytes := [2], serialized_root_metadata := some exRootMeta,
    signatures := [exSigValid] }

/-- An incoming root carrying `exRootMeta2`, signed by `exKid`. -/
def exNewRoot : SignedRootMetadata :=
  { bytes := [9, 9], serialized_root_metadata := some exRootMeta2,
    signatures := [exSigValid] }

/-- The SHA-256 hash entry of the example target (digest of its payload
under `exShaZero`). -/
def exHashEntry : TargetHash :=
  { function := some kSha256, hash := some (List.replicate 32 0) }

/-- A target file of one byte named by the single byte 102. -/
def exTarget : TargetFile :=
  { file_name := some [102], length := some 1, hashes := [exHashEntry] }

/-- Targets metadata at version 1 listing `exTarget`. -/
def exTm : TargetsMetadata :=
  { bytes := [3], common_metadata := some { version := some 1 },
    target_files := [exTarget] }

/-- Signed targets metadata for `exTm`, signed by `exKid`. -/
def exStm : SignedTargetsMetadata :=
  { serialized_targets_metadata := some exTm, signatures := [exSigValid] }

/-- Signed targets metadata for `exTm` with zero signatures. -/
def exStmUnsigned : SignedTargetsMetadata :=
  { serialized_targets_metadata := some exTm, signatures := [] }

/-- A happy-path bundle: no incoming root, signed targets metadata, and the
one-byte payload for `exTarget` present. -/
def exBundle : UpdateBundle :=
  { root_metadata := none
    targets_metadata := [(kTopLevelTargetsName, exStm)]
    target_payloads := [([102], [42])] }

/-- The happy-path bundle extended with an incoming (upgraded) root. -/
def exBundleRoot : UpdateBundle :=
  { root_metadata := some exNewRoot
    targets_metadata := [(kTopLevelTargetsName, exStm)]
    target_payloads := [([102], [42])] }

/-- The happy-path bundle with unsigned targets metadata. -/
def exBundleUnsigned : UpdateBundle :=
  { root_metadata := none
    targets_metadata := [(kTopLevelTargetsName, exStmUnsigned)]
    target_payloads := [([102], [42])] }

/-- An entirely empty bundle. -/
def exBundleEmpty : UpdateBundle :=
  { root_metadata := none, targets_metadata := [], target_payloads := [] }

/-- A backend holding `exTroot`, no on-device manifest, and a persist
operation that succeeds. -/
def exBackend : Backend :=
  { on_device_root := Except.ok exTroot
    device_manifest := Except.error Status.notFound
    persist_root := Status.ok }

/-- Normal-mode configuration with verification compiled in. -/
def exCfgN : Config :=
  { disable_bundle_verification := false
    disable_verification := false
    with_personalization := false
    max_target_name_length := 32
    max_target_payload_size := 100 }

/-- Self-verification mode configuration. -/
def exCfgS : Config :=
  { disable_bundle_verification := false
    disable_verification := true
    with_personalization := false
    max_target_name_length := 32
    max_target_payload_size := 100 }

/-- Configuration with bundle verification compiled out. -/
def exCfgD : Config :=
  { disable_bundle_verification := true
    disable_verification := false
    with_personalization := false
    max_target_name_length := 32
    max_target_payload_size := 100 }

/-! ### Lemmas about the signature verifier loop -/

theorem countAccepted_nil (E : List Nat → List Nat → List Nat → Bool)
    (S : List Nat → List Nat) (msg : List Nat) (kids : List (List Nat))
    (km : List (List Nat × Key)) : countAccepted E S msg kids km [] = 0 := rfl

theorem countAccepted_cons (E : List Nat → List Nat → List Nat → Bool)
    (S : List Nat → List Nat) (msg : List Nat) (kids : List (List Nat))
    (km : List (List Nat × Key)) (s : Signature) (sigs : List Signature) :
    countAccepted E S msg kids km (s :: sigs) =
      countAccepted E S msg kids km sigs +
        (if sigAccepted E S msg kids km s = true then 1 else 0) := by
  simp [countAccepted, List.countP_cons]

theorem countAccepted_append (E : List Nat → List Nat → List Nat → Bool)
    (S : List Nat → List Nat) (msg : List Nat) (kids : List (List Nat))
    (km : List (List Nat × Key)) (l1 l2 : List Signature) :
    countAccepted E S msg kids km (l1 ++ l2) =
      countAccepted E S msg kids km l1 + countAccepted E S msg kids km l2 := by
  simp [countAccepted, List.countP_append]

/-- If the loop, entered with `v` already verified signatures, still needs
at most the accepted signatures of `pre`, it returns `ok` whatever follows
`pre` (later signatures are never inspected). -/
theorem vmsGo_ok_of_count (E : List Nat → List Nat → List Nat → Bool)
    (S : List Nat → List Nat) (msg : List Nat) (t : Nat)
    (kids : List (List Nat)) (km : List (List Nat × Key)) :
    ∀ (pre suf : List Signature) (v : Nat),
      (∀ s ∈ pre, sigWellFormed kids km s) → v < t →
      t ≤ v + countAccepted E S msg kids km pre →
      vmsGo E S (Except.ok msg) t kids km (pre ++ suf) v = Status.ok := by
  intro pre
  induction pre with
  | nil =>
    intro suf v _ hv hc
    rw [countAccepted_nil] at hc
    omega
  | cons s rest ih =>
    intro suf v hwf hv hc
    have hws := hwf s (List.mem_cons_self s rest)
    have hwrest : ∀ x ∈ rest, sigWellFormed kids km x :=
      fun x hx => hwf x (List.mem_cons_of_mem s hx)
    rw [countAccepted_cons] at hc
    cases hk : s.key_id with
    | none => simp only [sigWellFormed, hk] at hws
    | some kid =>
      simp only [sigWellFormed, hk] at hws
      obtain ⟨hlen, hallow⟩ := hws
      simp only [List.cons_append, vmsGo, hk]
      rw [if_neg (by simp [hlen])]
      by_cases hmem : kid ∈ kids
      · obtain ⟨hsome, k, hlk, hkv⟩ := hallow hmem
        cases hsg : s.sig with
        | none => rw [hsg] at hsome; simp at hsome
        | some sg =>
          cases hkval : k.keyval with
          | none => rw [hkval] at hkv; simp at hkv
          | some kv =>
            rw [if_pos hmem]
            simp only [hsg, hlk, hkval]
            have hacc : sigAccepted E S msg kids km s = E kv (S msg) sg := by
              simp [sigAccepted, hk, hlen, hmem, hsg, hlk, hkval]
            by_cases hE : E kv (S msg) sg = true
            · rw [hacc, hE] at hc
              rw [if_pos hE]
              by_cases hvt : v + 1 = t
              · rw [if_pos hvt]
              · rw [if_neg hvt]
                refine ih suf (v + 1) hwrest (by omega) (by simp at hc; omega)
            · rw [hacc] at hc
              rw [if_neg hE] at hc
              rw [if_neg hE]
              exact ih suf v hwrest hv (by omega)
      · rw [if_neg hmem]
        have hacc : sigAccepted E S msg kids km s = false := by
          simp [sigAccepted, hk, hlen, hmem]
        rw [hacc] at hc
        simp at hc
        exact ih suf v hwrest hv (by omega)

/-- If the accepted signatures of the whole list cannot reach the threshold,
the loop ends in `unauthenticated`. -/
theorem vmsGo_unauth_of_count (E : List Nat → List Nat → List Nat → Bool)
    (S : List Nat → List Nat) (msg : List Nat) (t : Nat)
    (kids : List (List Nat)) (km : List (List Nat × Key)) :
    ∀ (sigs : List Signature) (v : Nat),
      (∀ s ∈ sigs, sigWellFormed kids km s) →
      v + countAccepted E S msg kids km sigs < t →
      vmsGo E S (Except.ok msg) t kids km sigs v = Status.unauthenticated := by
  intro sigs
  induction sigs with
  | nil => intro v _ _; simp [vmsGo]
  | cons s rest ih =>
    intro v hwf hc
    have hws := hwf s (List.mem_cons_self s rest)
    have hwrest : ∀ x ∈ rest, sigWellFormed kids km x :=
      fun x hx => hwf x (List.mem_cons_of_mem s hx)
    rw [countAccepted_cons] at hc
    cases hk : s.key_id with
    | none => simp only [sigWellFormed, hk] at hws
    | some kid =>
      simp only [sigWellFormed, hk] at hws
      obtain ⟨hlen, hallow⟩ := hws
      simp only [vmsGo, hk]
      rw [if_neg (by simp [hlen])]
      by_cases hmem : kid ∈ kids
      · obtain ⟨hsome, k, hlk, hkv⟩ := hallow hmem
        cases hsg : s.sig with
        | none => rw [hsg] at hsome; simp at hsome
        | some sg =>
          cases hkval : k.keyval with
          | none => rw [hkval] at hkv; simp at hkv
          | some kv =>
            rw [if_pos hmem]
            simp only [hsg, hlk, hkval]
            have hacc : sigAccepted E S msg kids km s = E kv (S msg) sg := by
              simp [sigAccepted, hk, hlen, hmem, hsg, hlk, hkval]
            by_cases hE : E kv (S msg) sg = true
            · rw [hacc, hE] at hc
              rw [if_pos hE]
              rw [if_neg (by simp at hc; omega)]
              exact ih (v + 1) hwrest (by simp at hc; omega)
            · rw [hacc] at hc
              rw [if_neg hE] at hc
              rw [if_neg hE]
              exact ih v hwrest (by omega)
      · rw [if_neg hmem]
        have hacc : sigAccepted E S msg kids km s = false := by
          simp [sigAccepted, hk, hlen, hmem]
        rw [hacc] at hc
        simp at hc
        exact ih v hwrest (by omega)

/-- With threshold 0 the loop can never return `ok`: the comparison with the
threshold happens only after a counter increment, so it is never satisfied. -/
theorem vmsGo_zero_threshold_ne_ok (E : List Nat → List Nat → List Nat → Bool)
    (S : List Nat → List Nat) (msg : List Nat) (kids : List (List Nat))
    (km : List (List Nat × Key)) :
    ∀ (sigs : List Signature) (v : Nat),
      vmsGo E S (Except.ok msg) 0 kids km sigs v ≠ Status.ok := by
  intro sigs
  induction sigs with
  | nil => intro v; simp [vmsGo]
  | cons s rest ih =>
    intro v
    cases hk : s.key_id with
    | none => simp [vmsGo, hk]
    | some kid =>
      by_cases hlen : kid.length ≠ 32
      · simp only [vmsGo, hk]
        rw [if_pos hlen]
        simp
      · by_cases hmem : kid ∈ kids
        · cases hsg : s.sig with
          | none =>
            simp only [vmsGo, hk, hsg]
            rw [if_neg hlen, if_pos hmem]
            simp
          | some sg =>
            cases hlk : lookupMap km kid with
            | none =>
              simp only [vmsGo, hk, hsg, hlk]
              rw [if_neg hlen, if_pos hmem]
              simp
            | some k =>
              cases hkval : k.keyval with
              | none =>
                simp only [vmsGo, hk, hsg, hlk, hkval]
                rw [if_neg hlen, if_pos hmem]
                simp
              | some kv =>
                simp only [vmsGo, hk, hsg, hlk, hkval]
                rw [if_neg hlen, if_pos hmem]
                by_cases hE : E kv (S msg) sg = true
                · rw [if_pos hE, if_neg (Nat.succ_ne_zero v)]
                  exact ih (v + 1)
                · rw [if_neg hE]
                  exact ih v
        · simp only [vmsGo, hk]
          rw [if_neg hlen, if_neg hmem]
          exact ih v

/-- When every present key id is 32 bytes long, the loop never produces the
`internal` (structurally malformed) error. -/
theorem vmsGo_ne_internal (E : List Nat → List Nat → List Nat → Bool)
    (S : List Nat → List Nat) (msg : List Nat) (t : Nat)
    (kids : List (List Nat)) (km : List (List Nat × Key)) :
    ∀ (sigs : List Signature) (v : Nat),
      (∀ s ∈ sigs, ∀ kid, s.key_id = some kid → kid.length = 32) →
      vmsGo E S (Except.ok msg) t kids km sigs v ≠ Status.internal := by
  intro sigs
  induction sigs with
  | nil => intro v _; simp [vmsGo]
  | cons s rest ih =>
    intro v hwf
    have hrest : ∀ x ∈ rest, ∀ kid, x.key_id = some kid → kid.length = 32 :=
      fun x hx => hwf x (List.mem_cons_of_mem s hx)
    cases hk : s.key_id with
    | none => simp [vmsGo, hk]
    | some kid =>
      have hlen := hwf s (List.mem_cons_self s rest) kid hk
      by_cases hmem : kid ∈ kids
      · cases hsg : s.sig with
        | none =>
          simp only [vmsGo, hk, hsg]
          rw [if_neg (by simp [hlen]), if_pos hmem]
          simp
        | some sg =>
          cases hlk : lookupMap km kid with
          | none =>
            simp only [vmsGo, hk, hsg, hlk]
            rw [if_neg (by simp [hlen]), if_pos hmem]
            simp
          | some k =>
            cases hkval : k.keyval with
            | none =>
              simp only [vmsGo, hk, hsg, hlk, hkval]
              rw [if_neg (by simp [hlen]), if_pos hmem]
              simp
            | some kv =>
              simp only [vmsGo, hk, hsg, hlk, hkval]
              rw [if_neg (by simp [hlen]), if_pos hmem]
              by_cases hE : E kv (S msg) sg = true
              · rw [if_pos hE]
                by_cases hvt : v + 1 = t
                · rw [if_pos hvt]; simp
                · rw [if_neg hvt]
                  exact ih (v + 1) hrest
              · rw [if_neg hE]
                exact ih v hrest
      · simp only [vmsGo, hk]
        rw [if_neg (by simp [hlen]), if_neg hmem]
        exact ih v hrest

/-- An empty signature list always makes the verifier return the `notFound`
sentinel (either from the threshold read of a requirement without an
explicit threshold, or from the zero-total check after the loop). -/
theorem vms_nil (E : List Nat → List Nat → List Nat → Bool)
    (S : List Nat → List Nat) (message : Except Status (List Nat))
    (req : SignatureRequirement) (km : List (List Nat × Key)) :
    verifyMetadataSignatures E S message [] req km = Status.notFound := by
  unfold verifyMetadataSignatures
  cases req.threshold <;> simp

/-! ### Claim C2 -/

/-- Claim C2, counterexample to the claim as stated.  The claim asserts that
whenever at least `threshold` of the supplied signatures verify under allowed
keys, the verifier returns Ok, and that with fewer verifying signatures on a
non-empty list it returns Unauthenticated.  Both parts fail on the code:
with threshold 0 a single valid signature yields `unauthenticated` (the
threshold comparison happens only after an increment, so a threshold of 0 is
never met although zero valid signatures suffice per the claim), and with
threshold 1 a malformed signature placed before a valid one aborts the scan
with `internal` instead of returning Ok. -/
theorem C2_counterexample :
    verifyMetadataSignatures exAcceptAll exShaZero (Except.ok []) [exSigValid]
        exReq0 exKeyMap = Status.unauthenticated
    ∧ verifyMetadataSignatures exAcceptAll exShaZero (Except.ok [])
        [exSigShortId, exSigValid] exReq1 exKeyMap = Status.internal := by
  constructor <;> decide

/-- Claim C2, amended: for a threshold of at least 1 and well-formed
signatures reaching it, the verifier returns Ok — and it does so as soon as
the threshold is met within a prefix, whatever signatures (well-formed or
not) follow; a non-empty well-formed list with fewer accepted signatures
than the threshold yields Unauthenticated; an empty signature list yields
NotFound. -/
theorem C2_threshold_semantics (E : List Nat → List Nat → List Nat → Bool)
    (S : List Nat → List Nat) (msg : List Nat) (req : SignatureRequirement)
    (km : List (List Nat × Key)) (t : Nat) (pre suf : List Signature)
    (ht : req.threshold = some t) (ht1 : 1 ≤ t)
    (hwf : ∀ s ∈ pre, sigWellFormed req.key_ids km s) :
    (t ≤ countAccepted E S msg req.key_ids km pre →
      verifyMetadataSignatures E S (Except.ok msg) (pre ++ suf) req km = Status.ok)
    ∧ ((∀ s ∈ suf, sigWellFormed req.key_ids km s) →
        countAccepted E S msg req.key_ids km (pre ++ suf) < t →
        pre ++ suf ≠ [] →
        verifyMetadataSignatures E S (Except.ok msg) (pre ++ suf) req km =
          Status.unauthenticated)
    ∧ (pre ++ suf = [] →
        verifyMetadataSignatures E S (Except.ok msg) (pre ++ suf) req km =
          Status.notFound) := by
  refine ⟨?_, ?_, ?_⟩
  · intro hc
    have hpre : pre ≠ [] := by
      intro h
      rw [h, countAccepted_nil] at hc
      omega
    simp only [verifyMetadataSignatures, ht]
    rw [if_neg (by simp [List.append_eq_nil, hpre])]
    exact vmsGo_ok_of_count E S msg t req.key_ids km pre suf 0 hwf (by omega)
      (by omega)
  · intro hwsuf hc hne
    have hall : ∀ s ∈ pre ++ suf, sigWellFormed req.key_ids km s := by
      intro s hs
      rcases List.mem_append.mp hs with h | h
      · exact hwf s h
      · exact hwsuf s h
    cases hps : pre ++ suf with
    | nil => exact absurd hps hne
    | cons x xs =>
      simp only [verifyMetadataSignatures, ht]
      rw [if_neg (by simp)]
      rw [hps] at hall hc
      exact vmsGo_unauth_of_count E S msg t req.key_ids km (x :: xs) 0 hall
        (by omega)
  · intro h
    rw [h]
    exact vms_nil E S (Except.ok msg) req km

/-- Claim C2 witness: with threshold 1, a valid signature followed by a
malformed one is accepted — the threshold is met on the prefix and the
malformed suffix is never inspected. -/
theorem C2_threshold_semantics_witness :
    verifyMetadataSignatures exAcceptAll exShaZero (Except.ok [])
      ([exSigValid] ++ [exSigShortId]) exReq1 exKeyMap = Status.ok := by
  refine (C2_threshold_semantics exAcceptAll exShaZero [] exReq1 exKeyMap 1
    [exSigValid] [exSigShortId] rfl (by omega) ?_).1 (by decide)
  intro s hs
  rw [List.mem_singleton] at hs
  subst hs
  exact ⟨by decide, fun _ => ⟨rfl, exKey, by decide, rfl⟩⟩

/-! ### Claim C8 -/

/-- Claim C8, counterexample to the claim as stated.  The claim asserts that
a requirement whose threshold is 0 or exceeds the number of allowed key ids
is rejected as malformed.  The code performs no such validity check: with
threshold 0 and one valid signature it returns the authentication verdict
`unauthenticated`, and a threshold of 2 against a single allowed key id is
even met by supplying the same valid signature twice. -/
theorem C8_counterexample :
    verifyMetadataSignatures exAcceptAll exShaZero (Except.ok []) [exSigValid]
        exReq0 exKeyMap ≠ Status.internal
    ∧ verifyMetadataSignatures exAcceptAll exShaZero (Except.ok []) []
        exReq0 exKeyMap = Status.notFound
    ∧ verifyMetadataSignatures exAcceptAll exShaZero (Except.ok [])
        [exSigValid, exSigValid] exReq2 exKeyMap = Status.ok := by
  refine ⟨by decide, by decide, by decide⟩

/-- Claim C8, amended: the verifier performs no validity check on the
threshold.  A threshold of 0 or one exceeding the allowed key id count is
processed like any other instead of being rejected as malformed: the only
malformed-input (`internal`) failure comes from a wrongly sized key id, and
a threshold of 0 simply can never be satisfied (the verifier never returns
Ok for it). -/
theorem C8_threshold_unchecked (E : List Nat → List Nat → List Nat → Bool)
    (S : List Nat → List Nat) (msg : List Nat) (sigs : List Signature)
    (req : SignatureRequirement) (km : List (List Nat × Key)) :
    (req.threshold = some 0 →
      verifyMetadataSignatures E S (Except.ok msg) sigs req km ≠ Status.ok)
    ∧ ((∀ s ∈ sigs, ∀ kid, s.key_id = some kid → kid.length = 32) →
        verifyMetadataSignatures E S (Except.ok msg) sigs req km ≠
          Status.internal) := by
  constructor
  · intro ht
    simp only [verifyMetadataSignatures, ht]
    by_cases hs : sigs = []
    · rw [if_pos hs]; simp
    · rw [if_neg hs]
      exact vmsGo_zero_threshold_ne_ok E S msg req.key_ids km sigs 0
  · intro hwf
    cases ht : req.threshold with
    | none => simp [verifyMetadataSignatures, ht]
    | some t =>
      simp only [verifyMetadataSignatures, ht]
      by_cases hs : sigs = []
      · rw [if_pos hs]; simp
      · rw [if_neg hs]
        exact vmsGo_ne_internal E S msg t req.key_ids km sigs 0 hwf

/-- Claim C8 witness: threshold 0 with one valid signature is not accepted. -/
theorem C8_threshold_unchecked_witness :
    verifyMetadataSignatures exAcceptAll exShaZero (Except.ok []) [exSigValid]
      exReq0 exKeyMap ≠ Status.ok :=
  (C8_threshold_unchecked exAcceptAll exShaZero [] [exSigValid] exReq0
    exKeyMap).1 rfl

/-! ### Claim C9 -/

/-- Claim C9: whenever the signature loop reaches a signature whose key id
does not have size exactly 32 bytes — at any position, with any number of
already verified signatures — the whole verification fails immediately with
the `internal` error; the signature is not skipped.  In particular a whole
`VerifyMetadataSignatures` call whose signature list starts with such a
signature fails with `internal`. -/
theorem C9_bad_key_id_internal (E : List Nat → List Nat → List Nat → Bool)
    (S : List Nat → List Nat) (message : Except Status (List Nat)) (t : Nat)
    (kids : List (List Nat)) (km : List (List Nat × Key)) (v : Nat)
    (s : Signature) (suf : List Signature) (req : SignatureRequirement)
    (t2 : Nat) (kid : List Nat) (hk : s.key_id = some kid)
    (hlen : kid.length ≠ 32) :
    vmsGo E S message t kids km (s :: suf) v = Status.internal
    ∧ (req.threshold = some t2 →
        verifyMetadataSignatures E S message (s :: suf) req km =
          Status.internal) := by
  have hgo : ∀ (t3 : Nat) (v3 : Nat),
      vmsGo E S message t3 kids km (s :: suf) v3 = Status.internal := by
    intro t3 v3
    simp only [vmsGo, hk]
    rw [if_pos hlen]
  refine ⟨hgo t v, ?_⟩
  intro ht
  simp only [verifyMetadataSignatures, ht]
  rw [if_neg (by simp)]
  simp only [vmsGo, hk]
  rw [if_pos hlen]

/-- Claim C9 witness: a one-byte key id aborts the scan with `internal`,
both at the loop level with a nonzero verified count and through the
top-level verifier. -/
theorem C9_bad_key_id_internal_witness :
    vmsGo exAcceptAll exShaZero (Except.ok []) 2 [exKid] exKeyMap
        [exSigShortId, exSigValid] 1 = Status.internal
    ∧ (exReq1.threshold = some 1 →
        verifyMetadataSignatures exAcceptAll exShaZero (Except.ok [])
          [exSigShortId, exSigValid] exReq1 exKeyMap = Status.internal) :=
  C9_bad_key_id_internal exAcceptAll exShaZero (Except.ok []) 2 [exKid]
    exKeyMap 1 exSigShortId [exSigValid] exReq1 1 [1] rfl (by decide)

/-! ### Claim C3 -/

/-- Claim C3: a `SafelyPersistRootMetadata` call (always carrying the new
root's raw bytes) happens only in normal mode, and only when the bundle's
new root has passed both signature verifications — under the trusted root
and under itself — and the version monotonicity check; in self-verification
mode the root is never persisted; and the persistence outcome of a whole
`DoVerify` run is exactly that of `UpgradeRoot`, fixed before targets
metadata verification begins and unaffected by the later stages. -/
theorem C3_persist_only_after_checks (cfg : Config)
    (E : List Nat → List Nat → List Nat → Bool) (S : List Nat → List Nat)
    (bk : Backend) (b : UpdateBundle) :
    (∀ bs, (upgradeRoot cfg E S bk b).persisted = some bs →
      cfg.disable_verification = false ∧
      ∃ nr tr trc nrc tv nv,
        b.root_metadata = some nr ∧ bs = nr.bytes ∧
        bk.on_device_root = Except.ok tr ∧
        verifyRootMetadataSignatures E S tr nr = Except.ok true ∧
        verifyRootMetadataSignatures E S nr nr = Except.ok true ∧
        tr.serialized_root_metadata = some trc ∧
        getMetadataVersion trc.common_metadata = Except.ok tv ∧
        nr.serialized_root_metadata = some nrc ∧
        getMetadataVersion nrc.common_metadata = Except.ok nv ∧
        tv ≤ nv)
    ∧ (cfg.disable_verification = true →
        (upgradeRoot cfg E S bk b).persisted = none)
    ∧ (cfg.disable_bundle_verification = false →
        (doVerify cfg E S bk b).persisted =
          (upgradeRoot cfg E S bk b).persisted) := by
  refine ⟨?_, ?_, ?_⟩
  · intro bs hp
    simp only [upgradeRoot] at hp
    cases hroot : b.root_metadata with
    | none => simp [hroot] at hp
    | some nr =>
      simp only [hroot] at hp
      cases htr : chosenTrustedRoot cfg bk b with
      | error e => simp [htr] at hp
      | ok tr =>
        simp only [htr] at hp
        cases h3 : verifyRootMetadataSignatures E S tr nr with
        | error e => simp [h3] at hp
        | ok v1 =>
          cases v1 with
          | false => simp [h3] at hp
          | true =>
            simp only [h3] at hp
            cases h4 : verifyRootMetadataSignatures E S nr nr with
            | error e => simp [h4] at hp
            | ok v2 =>
              cases v2 with
              | false => simp [h4] at hp
              | true =>
                simp only [h4] at hp
                cases hser : tr.serialized_root_metadata with
                | none => simp [hser] at hp
                | some trc =>
                  simp only [hser] at hp
                  cases hv1 : getMetadataVersion trc.common_metadata with
                  | error e => simp [hv1] at hp
                  | ok tv =>
                    simp only [hv1] at hp
                    cases hser2 : nr.serialized_root_metadata with
                    | none => simp [hser2] at hp
                    | some nrc =>
                      simp only [hser2] at hp
                      cases hv2 : getMetadataVersion nrc.common_metadata with
                      | error e => simp [hv2] at hp
                      | ok nv =>
                        simp only [hv2] at hp
                        by_cases hgt : tv > nv
                        · rw [if_pos hgt] at hp
                          simp at hp
                        · rw [if_neg hgt] at hp
                          by_cases hdv : cfg.disable_verification = true
                          · rw [if_pos hdv] at hp
                            simp at hp
                          · rw [if_neg hdv] at hp
                            have hdvf : cfg.disable_verification = false := by
                              revert hdv
                              cases cfg.disable_verification <;> simp
                            have htr2 : bk.on_device_root = Except.ok tr := by
                              rw [chosenTrustedRoot, hdvf] at htr
                              simpa using htr
                            have hbs : bs = nr.bytes := by
                              by_cases hpr : bk.persist_root = Status.ok
                              · rw [if_pos hpr] at hp
                                simp at hp
                                exact hp.symm
                              · rw [if_neg hpr] at hp
                                simp at hp
                                exact hp.symm
                            exact ⟨hdvf, nr, tr, trc, nrc, tv, nv, rfl, hbs,
                              htr2, h3, h4, hser, hv1, hser2, hv2, by omega⟩
  · intro h
    simp only [upgradeRoot, h]
    (repeat' split) <;> first | rfl | simp_all
  · intro h
    simp only [doVerify, h, Bool.false_eq_true, if_false]
    (repeat' split) <;> rfl

/-- Claim C3 witness: a concrete normal-mode run whose root upgrade persists
the new root bytes; the theorem recovers the full chain of passed checks. -/
theorem C3_persist_only_after_checks_witness :
    exCfgN.disable_verification = false ∧
    ∃ nr tr trc nrc tv nv,
      exBundleRoot.root_metadata = some nr ∧ ([9, 9] : List Nat) = nr.bytes ∧
      exBackend.on_device_root = Except.ok tr ∧
      verifyRootMetadataSignatures exAcceptAll exShaZero tr nr = Except.ok true ∧
      verifyRootMetadataSignatures exAcceptAll exShaZero nr nr = Except.ok true ∧
      tr.serialized_root_metadata = some trc ∧
      getMetadataVersion trc.common_metadata = Except.ok tv ∧
      nr.serialized_root_metadata = some nrc ∧
      getMetadataVersion nrc.common_metadata = Except.ok nv ∧
      tv ≤ nv :=
  (C3_persist_only_after_checks exCfgN exAcceptAll exShaZero exBackend
    exBundleRoot).1 [9, 9] (by decide)

/-! ### Claim C4 -/

/-- Claim C4: during a root upgrade whose new root verifies both under the
trusted root and under itself, a trusted version strictly greater than the
new version fails with `unauthenticated` and persists nothing, while a new
version greater than or equal to the trusted one passes the version check
(an equal version is accepted): the upgrade then returns Ok in
self-verification mode and otherwise completes with the backend's
persistence status. -/
theorem C4_root_version_check (cfg : Config)
    (E : List Nat → List Nat → List Nat → Bool) (S : List Nat → List Nat)
    (bk : Backend) (b : UpdateBundle) (nr tr : SignedRootMetadata)
    (trc nrc : RootMetadata) (tv nv : Nat)
    (h1 : b.root_metadata = some nr)
    (h2 : chosenTrustedRoot cfg bk b = Except.ok tr)
    (h3 : verifyRootMetadataSignatures E S tr nr = Except.ok true)
    (h4 : verifyRootMetadataSignatures E S nr nr = Except.ok true)
    (h5 : tr.serialized_root_metadata = some trc)
    (h6 : getMetadataVersion trc.common_metadata = Except.ok tv)
    (h7 : nr.serialized_root_metadata = some nrc)
    (h8 : getMetadataVersion nrc.common_metadata = Except.ok nv) :
    (tv > nv →
      (upgradeRoot cfg E S bk b).status = Status.unauthenticated ∧
      (upgradeRoot cfg E S bk b).persisted = none)
    ∧ (nv ≥ tv →
      (upgradeRoot cfg E S bk b).status =
        (if cfg.disable_verification then Status.ok else bk.persist_root)) := by
  constructor
  · intro hgt
    constructor <;>
      · simp only [upgradeRoot, h1, h2, h3, h4, h5, h6, h7, h8]
        rw [if_pos hgt]
  · intro hge
    simp only [upgradeRoot, h1, h2, h3, h4, h5, h6, h7, h8]
    rw [if_neg (by omega)]
    cases hdv : cfg.disable_verification with
    | true => simp
    | false =>
      simp only [Bool.false_eq_true, if_false]
      by_cases hpr : bk.persist_root = Status.ok
      · rw [if_pos hpr, hpr]
      · rw [if_neg hpr]

/-- Claim C4 witness: the example root upgrade (trusted version 1, incoming
version 2) passes the version check and completes with the backend's
persistence success. -/
theorem C4_root_version_check_witness :
    (upgradeRoot exCfgN exAcceptAll exShaZero exBackend exBundleRoot).status =
      (if exCfgN.disable_verification then Status.ok
       else exBackend.persist_root) :=
  (C4_root_version_check exCfgN exAcceptAll exShaZero exBackend exBundleRoot
    exNewRoot exTroot exRootMeta exRootMeta2 1 2 rfl rfl rfl rfl rfl rfl rfl
    rfl).2 (by omega)

/-! ### Claim C5 -/

/-- Claim C5: in normal mode, once the targets metadata signatures have
verified, the anti-rollback check behaves as follows: a backend reporting
the on-device manifest as absent (NotFound) makes the check be skipped and
targets verification return Ok; with a manifest present, a device version
strictly greater than the new targets version fails with `unauthenticated`,
while an equal or greater new version is accepted. -/
theorem C5_targets_anti_rollback (cfg : Config)
    (E : List Nat → List Nat → List Nat → Bool) (S : List Nat → List Nat)
    (bk : Backend) (b : UpdateBundle) (troot : SignedRootMetadata)
    (stm : SignedTargetsMetadata) (trusted : RootMetadata)
    (req : SignatureRequirement)
    (hn : cfg.disable_verification = false)
    (hl : lookupMap b.targets_metadata kTopLevelTargetsName = some stm)
    (hser : troot.serialized_root_metadata = some trusted)
    (hreq : trusted.targets_signature_requirement = some req)
    (hsig : verifyMetadataSignatures E S (serializedTargetsBytes stm)
        stm.signatures req trusted.keys = Status.ok) :
    (bk.device_manifest = Except.error Status.notFound →
      verifyTargetsMetadata cfg E S bk b (Except.ok troot) = Status.ok)
    ∧ (∀ dm cur tm newv, bk.device_manifest = Except.ok dm →
        dm.version = some cur →
        stm.serialized_targets_metadata = some tm →
        getMetadataVersion tm.common_metadata = Except.ok newv →
        ((cur > newv →
            verifyTargetsMetadata cfg E S bk b (Except.ok troot) =
              Status.unauthenticated)
         ∧ (cur ≤ newv →
            verifyTargetsMetadata cfg E S bk b (Except.ok troot) =
              Status.ok))) := by
  constructor
  · intro hdm
    simp [verifyTargetsMetadata, hn, hl, hser, hreq, hsig, hdm]
  · intro dm cur tm newv hdm hcur htm hver
    constructor
    · intro hgt
      simp [verifyTargetsMetadata, hn, hl, hser, hreq, hsig, hdm, hcur, htm,
        hver, hgt]
    · intro hle
      simp [verifyTargetsMetadata, hn, hl, hser, hreq, hsig, hdm, hcur, htm,
        hver]
      omega

/-- Claim C5 witness: the example normal-mode run with an absent on-device
manifest skips anti-rollback and accepts the targets metadata. -/
theorem C5_targets_anti_rollback_witness :
    verifyTargetsMetadata exCfgN exAcceptAll exShaZero exBackend exBundle
      (Except.ok exTroot) = Status.ok :=
  (C5_targets_anti_rollback exCfgN exAcceptAll exShaZero exBackend exBundle
    exTroot exStm exRootMeta exReq1 rfl (by decide) rfl rfl (by decide)).1 rfl

/-! ### Claim C6 -/

/-- Claim C6, counterexample to the claim as stated.  The claim asserts that
targets metadata carrying zero signatures makes normal-mode targets
verification fail with Unauthenticated.  On the code the signature verifier
returns the `notFound` sentinel for an empty signature list and normal-mode
`VerifyTargetsMetadata` propagates it unchanged, so the verification fails
with NotFound, not Unauthenticated. -/
theorem C6_counterexample :
    verifyTargetsMetadata exCfgN exAcceptAll exShaZero exBackend
        exBundleUnsigned (Except.ok exTroot) = Status.notFound
    ∧ Status.notFound ≠ Status.unauthenticated := by
  constructor <;> decide

/-- Claim C6, amended: with zero signatures on the top-level targets
metadata, targets verification fails with NotFound (the unsigned-bundle
sentinel of the signature verifier, propagated verbatim) in normal mode,
and succeeds in self-verification mode via the NotFound downgrade. -/
theorem C6_zero_signatures (cfgN cfgS : Config)
    (E : List Nat → List Nat → List Nat → Bool) (S : List Nat → List Nat)
    (bk : Backend) (b : UpdateBundle) (troot : SignedRootMetadata)
    (stm : SignedTargetsMetadata) (trusted : RootMetadata)
    (req : SignatureRequirement)
    (hn : cfgN.disable_verification = false)
    (hs : cfgS.disable_verification = true)
    (hl : lookupMap b.targets_metadata kTopLevelTargetsName = some stm)
    (hsig0 : stm.signatures = [])
    (hser : troot.serialized_root_metadata = some trusted)
    (hreq : trusted.targets_signature_requirement = some req) :
    verifyTargetsMetadata cfgN E S bk b (Except.ok troot) = Status.notFound
    ∧ verifyTargetsMetadata cfgS E S bk b (Except.ok troot) = Status.ok := by
  have hv : verifyMetadataSignatures E S (serializedTargetsBytes stm)
      stm.signatures req trusted.keys = Status.notFound := by
    rw [hsig0]
    exact vms_nil E S (serializedTargetsBytes stm) req trusted.keys
  constructor
  · simp [verifyTargetsMetadata, hn, hl, hser, hreq, hv]
  · simp [verifyTargetsMetadata, hs, hl, hser, hreq, hv]

/-- Claim C6 witness: the amended behavior on the concrete unsigned
bundle — NotFound in normal mode, Ok in self-verification mode. -/
theorem C6_zero_signatures_witness :
    verifyTargetsMetadata exCfgN exAcceptAll exShaZero exBackend
        exBundleUnsigned (Except.ok exTroot) = Status.notFound
    ∧ verifyTargetsMetadata exCfgS exAcceptAll exShaZero exBackend
        exBundleUnsigned (Except.ok exTroot) = Status.ok :=
  C6_zero_signatures exCfgN exCfgS exAcceptAll exShaZero exBackend
    exBundleUnsigned exTroot exStmUnsigned exRootMeta exReq1 rfl rfl
    (by decide) rfl rfl rfl

/-! ### Lemmas about the payload verifier and the facade -/

theorem findSha256_error (hs : List TargetHash) (e : Status)
    (h : findSha256 hs = Except.error e) : e = Status.notFound := by
  induction hs with
  | nil =>
    simp only [findSha256, Except.error.injEq] at h
    exact h.symm
  | cons hh rest ih =>
    simp only [findSha256] at h
    cases hf : hh.function with
    | none =>
      simp only [hf, Except.error.injEq] at h
      exact h.symm
    | some f =>
      simp only [hf] at h
      by_cases hsha : f = kSha256
      · rw [if_pos hsha] at h
        cases hb : hh.hash with
        | none =>
          simp only [hb, Except.error.injEq] at h
          exact h.symm
        | some bs => simp [hb] at h
      · rw [if_neg hsha] at h
        exact ih h

theorem manifestFromBundle_error (b : UpdateBundle) (e : Status)
    (h : manifestFromBundle b = Except.error e) : e = Status.notFound := by
  unfold manifestFromBundle at h
  cases hl : lookupMap b.targets_metadata kTopLevelTargetsName with
  | none =>
    simp only [hl, Except.error.injEq] at h
    exact h.symm
  | some stm =>
    simp only [hl] at h
    cases hs : stm.serialized_targets_metadata with
    | none =>
      simp only [hs, Except.error.injEq] at h
      exact h.symm
    | some tm => simp [hs] at h

theorem verifyInBundleTargetPayload_ok_iff (sha : List Nat → List Nat)
    (len : Nat) (sh : List Nat) (payload : List Nat) :
    verifyInBundleTargetPayload sha len sh payload = Status.ok ↔
      payload.length = len ∧ sh = sha payload := by
  unfold verifyInBundleTargetPayload
  split_ifs with h1 h2 <;> simp_all

theorem verifyOutOfBundleTargetPayload_ok (cfg : Config) (bk : Backend)
    (name : List Nat) (len : Nat) (sh : List Nat)
    (h : verifyOutOfBundleTargetPayload cfg bk name len sh = Status.ok) :
    cfg.with_personalization = true ∧
    ∃ dm cached csha, bk.device_manifest = Except.ok dm ∧
      findCachedTarget dm name = some cached ∧ cached.length = some len ∧
      findSha256 cached.hashes = Except.ok csha ∧ sh = readIntoBuf32 csha := by
  unfold verifyOutOfBundleTargetPayload at h
  by_cases hp : cfg.with_personalization = true
  · rw [if_pos hp] at h
    cases hdm : bk.device_manifest with
    | error e => simp [hdm] at h
    | ok dm =>
      simp only [hdm] at h
      cases hct : findCachedTarget dm name with
      | none => simp [hct] at h
      | some cached =>
        simp only [hct] at h
        cases hcl : cached.length with
        | none => simp [hcl] at h
        | some clen =>
          simp only [hcl] at h
          by_cases hlen : clen ≠ len
          · rw [if_pos hlen] at h
            simp at h
          · rw [if_neg hlen] at h
            cases hfs : findSha256 cached.hashes with
            | error e =>
              simp only [hfs] at h
              rw [findSha256_error cached.hashes e hfs] at h
              simp at h
            | ok csha =>
              simp only [hfs] at h
              by_cases hsh : sh ≠ readIntoBuf32 csha
              · rw [if_pos hsh] at h
                simp at h
              · rw [not_not] at hlen hsh
                exact ⟨hp, dm, cached, csha, rfl, hct, by rw [hcl, hlen], hfs,
                  hsh⟩
  · rw [if_neg hp] at h
    simp at h

theorem payloadsLoop_sound (cfg : Config) (sha : List Nat → List Nat)
    (bk : Backend) (b : UpdateBundle) :
    ∀ ts, verifyTargetsPayloadsLoop cfg sha bk b ts = Status.ok →
      ∀ t ∈ ts, ∃ name len sh,
        t.file_name = some name ∧
        name.length ≤ cfg.max_target_name_length ∧
        t.length = some len ∧ len ≤ cfg.max_target_payload_size ∧
        findSha256 t.hashes = Except.ok sh ∧
        verifyTargetPayload cfg sha bk b name len sh = Status.ok := by
  intro ts
  induction ts with
  | nil => intro _ t ht; exact absurd ht (List.not_mem_nil t)
  | cons tf rest ih =>
    intro h t ht
    simp only [verifyTargetsPayloadsLoop] at h
    cases hn : tf.file_name with
    | none => simp [hn] at h
    | some name =>
      simp only [hn] at h
      by_cases hnl : name.length > cfg.max_target_name_length
      · rw [if_pos hnl] at h
        simp at h
      · rw [if_neg hnl] at h
        cases hl : tf.length with
        | none => simp [hl] at h
        | some len =>
          simp only [hl] at h
          by_cases hpl : len > cfg.max_target_payload_size
          · rw [if_pos hpl] at h
            simp at h
          · rw [if_neg hpl] at h
            cases hfs : findSha256 tf.hashes with
            | error e =>
              simp only [hfs] at h
              rw [findSha256_error tf.hashes e hfs] at h
              simp at h
            | ok sh =>
              simp only [hfs] at h
              by_cases hst : verifyTargetPayload cfg sha bk b name len sh =
                  Status.ok
              · rw [if_pos hst] at h
                rcases List.mem_cons.mp ht with rfl | hmem
                · exact ⟨name, len, sh, hn, by omega, hl, by omega, hfs, hst⟩
                · exact ih h t hmem
              · rw [if_neg hst] at h
                exact absurd h hst

theorem verifyTargetsPayloads_manifest (cfg : Config)
    (sha : List Nat → List Nat) (bk : Backend) (b : UpdateBundle)
    (h : verifyTargetsPayloads cfg sha bk b = Status.ok) :
    ∃ tm, manifestFromBundle b = Except.ok tm ∧
      verifyTargetsPayloadsLoop cfg sha bk b tm.target_files = Status.ok := by
  unfold verifyTargetsPayloads at h
  cases hm : manifestFromBundle b with
  | error e =>
    simp only [hm] at h
    rw [manifestFromBundle_error b e hm] at h
    simp at h
  | ok tm =>
    simp only [hm] at h
    exact ⟨tm, rfl, h⟩

theorem doVerify_ok_stages (cfg : Config)
    (E : List Nat → List Nat → List Nat → Bool) (S : List Nat → List Nat)
    (bk : Backend) (b : UpdateBundle)
    (hen : cfg.disable_bundle_verification = false)
    (hok : (doVerify cfg E S bk b).status = Status.ok) :
    (upgradeRoot cfg E S bk b).status = Status.ok ∧
    verifyTargetsMetadata cfg E S bk b
      (upgradeRoot cfg E S bk b).trusted_root = Status.ok ∧
    verifyTargetsPayloads cfg S bk b = Status.ok ∧
    (doVerify cfg E S bk b).bundle_verified = true := by
  simp only [doVerify, hen, Bool.false_eq_true, if_false] at hok ⊢
  by_cases h1 : (upgradeRoot cfg E S bk b).status = Status.ok
  · rw [if_pos h1] at hok ⊢
    by_cases h2 : verifyTargetsMetadata cfg E S bk b
        (upgradeRoot cfg E S bk b).trusted_root = Status.ok
    · rw [if_pos h2] at hok ⊢
      by_cases h3 : verifyTargetsPayloads cfg S bk b = Status.ok
      · rw [if_pos h3] at hok ⊢
        exact ⟨h1, h2, h3, rfl⟩
      · rw [if_neg h3] at hok
        exact absurd hok h3
    · rw [if_neg h2] at hok
      exact absurd hok h2
  · rw [if_neg h1] at hok
    exact absurd hok h1

/-- With verification compiled in, a true `bundle_verified_` latch after
`DoVerify` implies the run returned Ok. -/
theorem doVerify_latch_imp (cfg : Config)
    (E : List Nat → List Nat → List Nat → Bool) (S : List Nat → List Nat)
    (bk : Backend) (b : UpdateBundle)
    (hen : cfg.disable_bundle_verification = false) :
    (doVerify cfg E S bk b).bundle_verified = true →
      (doVerify cfg E S bk b).status = Status.ok := by
  simp only [doVerify, hen, Bool.false_eq_true, if_false]
  (repeat' split) <;> simp

/-! ### Claim C1 -/

/-- Claim C1: if `DoVerify` returns Ok with verification compiled in, then
every target file of the bundle manifest has a present file name, length and
SHA-256 hash entry, and either (a) the bundle's `target_payloads` map holds
a payload of exactly that length whose digest equals the hash entry, or
(b) personalization is compiled in and the on-device manifest holds an entry
of that name with the same length whose SHA-256 hash entry, read into the
32-byte buffer, equals the manifest hash. -/
theorem C1_verify_ok_payloads_sound (cfg : Config)
    (E : List Nat → List Nat → List Nat → Bool) (S : List Nat → List Nat)
    (bk : Backend) (b : UpdateBundle)
    (hen : cfg.disable_bundle_verification = false)
    (hok : (doVerify cfg E S bk b).status = Status.ok) :
    ∀ tm, manifestFromBundle b = Except.ok tm →
      ∀ t ∈ tm.target_files, ∃ name len sh,
        t.file_name = some name ∧ t.length = some len ∧
        findSha256 t.hashes = Except.ok sh ∧
        ((∃ payload, lookupMap b.target_payloads name = some payload ∧
            payload.length = len ∧ sh = S payload)
         ∨ (cfg.with_personalization = true ∧
            ∃ dm cached csha, bk.device_manifest = Except.ok dm ∧
              findCachedTarget dm name = some cached ∧
              cached.length = some len ∧
              findSha256 cached.hashes = Except.ok csha ∧
              sh = readIntoBuf32 csha)) := by
  intro tm htm t ht
  obtain ⟨_, _, hps, _⟩ := doVerify_ok_stages cfg E S bk b hen hok
  obtain ⟨tm2, htm2, hloop⟩ := verifyTargetsPayloads_manifest cfg S bk b hps
  rw [htm] at htm2
  injection htm2 with he
  subst he
  obtain ⟨name, len, sh, hn, _, hl, _, hfs, hvp⟩ :=
    payloadsLoop_sound cfg S bk b tm.target_files hloop t ht
  refine ⟨name, len, sh, hn, hl, hfs, ?_⟩
  unfold verifyTargetPayload at hvp
  cases hlk : lookupMap b.target_payloads name with
  | some payload =>
    simp only [hlk] at hvp
    obtain ⟨hplen, hsh⟩ :=
      (verifyInBundleTargetPayload_ok_iff S len sh payload).mp hvp
    exact Or.inl ⟨payload, rfl, hplen, hsh⟩
  | none =>
    simp only [hlk] at hvp
    exact Or.inr (verifyOutOfBundleTargetPayload_ok cfg bk name len sh hvp)

/-- Claim C1 witness: the happy-path bundle verifies and its single target
satisfies the in-bundle measurement disjunct. -/
theorem C1_verify_ok_payloads_sound_witness :
    ∃ name len sh,
      exTarget.file_name = some name ∧ exTarget.length = some len ∧
      findSha256 exTarget.hashes = Except.ok sh ∧
      ((∃ payload, lookupMap exBundle.target_payloads name = some payload ∧
          payload.length = len ∧ sh = exShaZero payload)
       ∨ (exCfgN.with_personalization = true ∧
          ∃ dm cached csha, exBackend.device_manifest = Except.ok dm ∧
            findCachedTarget dm name = some cached ∧
            cached.length = some len ∧
            findSha256 cached.hashes = Except.ok csha ∧
            sh = readIntoBuf32 csha)) :=
  C1_verify_ok_payloads_sound exCfgN exAcceptAll exShaZero exBackend exBundle
    rfl (by decide) exTm rfl exTarget (by decide)

/-! ### Claim C10 -/

theorem sumLoop_eq (cfg : Config) (b : UpdateBundle) :
    ∀ (ts : List TargetFile) (acc : Nat), acc < 2 ^ 64 →
      (∀ t ∈ ts, ∃ name len, t.file_name = some name ∧
        name.length ≤ cfg.max_target_name_length ∧ t.length = some len) →
      sumLoop cfg b ts acc =
        Except.ok ((acc + presentPayloadSum b ts) % 2 ^ 64) := by
  intro ts
  induction ts with
  | nil =>
    intro acc hacc _
    simp only [sumLoop, presentPayloadSum, Nat.add_zero]
    rw [Nat.mod_eq_of_lt hacc]
  | cons t rest ih =>
    intro acc hacc hf
    obtain ⟨name, len, hn, hnl, hl⟩ := hf t (List.mem_cons_self t rest)
    have hfr : ∀ x ∈ rest, ∃ name2 len2, x.file_name = some name2 ∧
        name2.length ≤ cfg.max_target_name_length ∧ x.length = some len2 :=
      fun x hx => hf x (List.mem_cons_of_mem t hx)
    simp only [sumLoop, hn]
    rw [if_neg (by omega)]
    by_cases hp : (lookupMap b.target_payloads name).isSome = true
    · rw [if_pos hp]
      simp only [hl]
      rw [ih ((acc + len) % 2 ^ 64) (Nat.mod_lt _ (by norm_num)) hfr]
      have hps : presentPayloadSum b (t :: rest) =
          len + presentPayloadSum b rest := by
        simp [presentPayloadSum, hn, hl, hp]
      rw [hps, Nat.mod_add_mod, Nat.add_assoc]
    · rw [if_neg hp]
      rw [ih acc hacc hfr]
      have hps : presentPayloadSum b (t :: rest) = presentPayloadSum b rest := by
        simp [presentPayloadSum, hn, hl, hp]
      rw [hps]

/-- Claim C10: after a successful `DoVerify` with verification compiled in,
`GetTotalPayloadSize` returns exactly the sum — a 64-bit sum starting at
0 — of the `length` fields of those manifest entries whose names are present
in the bundle's `target_payloads` map; entries whose payloads are absent
contribute nothing.  Whenever the mathematical sum fits in 64 bits, the
result is exactly that sum. -/
theorem C10_total_payload_size (cfg : Config)
    (E : List Nat → List Nat → List Nat → Bool) (S : List Nat → List Nat)
    (bk : Backend) (b : UpdateBundle)
    (hen : cfg.disable_bundle_verification = false)
    (hok : (doVerify cfg E S bk b).status = Status.ok) :
    ∀ tm, manifestFromBundle b = Except.ok tm →
      getTotalPayloadSize (doVerify cfg E S bk b).bundle_verified cfg b =
        Except.ok (presentPayloadSum b tm.target_files % 2 ^ 64)
      ∧ (presentPayloadSum b tm.target_files < 2 ^ 64 →
         getTotalPayloadSize (doVerify cfg E S bk b).bundle_verified cfg b =
           Except.ok (presentPayloadSum b tm.target_files)) := by
  intro tm htm
  obtain ⟨_, _, hps, hbv⟩ := doVerify_ok_stages cfg E S bk b hen hok
  obtain ⟨tm2, htm2, hloop⟩ := verifyTargetsPayloads_manifest cfg S bk b hps
  rw [htm] at htm2
  injection htm2 with he
  subst he
  have hfields : ∀ t ∈ tm.target_files, ∃ name len,
      t.file_name = some name ∧ name.length ≤ cfg.max_target_name_length ∧
      t.length = some len := by
    intro t ht
    obtain ⟨name, len, _, hn, hnl, hl, _, _, _⟩ :=
      payloadsLoop_sound cfg S bk b tm.target_files hloop t ht
    exact ⟨name, len, hn, hnl, hl⟩
  have hmain : getTotalPayloadSize (doVerify cfg E S bk b).bundle_verified
      cfg b = Except.ok ((0 + presentPayloadSum b tm.target_files) % 2 ^ 64) := by
    rw [hbv]
    unfold getTotalPayloadSize getManifest
    rw [if_neg (by simp)]
    simp only [htm]
    exact sumLoop_eq cfg b tm.target_files 0 (by norm_num) hfields
  rw [Nat.zero_add] at hmain
  refine ⟨hmain, fun hlt => ?_⟩
  rw [hmain, Nat.mod_eq_of_lt hlt]

/-- Claim C10 witness: on the happy-path bundle the total payload size is
the one byte of the single present payload. -/
theorem C10_total_payload_size_witness :
    getTotalPayloadSize
        (doVerify exCfgN exAcceptAll exShaZero exBackend exBundle).bundle_verified
        exCfgN exBundle =
      Except.ok (presentPayloadSum exBundle exTm.target_files) :=
  (C10_total_payload_size exCfgN exAcceptAll exShaZero exBackend exBundle rfl
    (by decide) exTm rfl).2 (by decide)

/-! ### Claim C7 -/

/-- Claim C7, counterexample to the claim as stated.  The claim asserts that
`GetManifest` succeeds if and only if the `bundle_verified` latch is true.
With bundle verification compiled out, `DoVerify` sets the latch without
examining the bundle, and on a bundle without targets metadata `GetManifest`
then fails (with NotFound, not FailedPrecondition) although the latch is
true. -/
theorem C7_counterexample :
    (doVerify exCfgD exAcceptAll exShaZero exBackend exBundleEmpty).status =
      Status.ok
    ∧ (doVerify exCfgD exAcceptAll exShaZero exBackend
        exBundleEmpty).bundle_verified = true
    ∧ getManifest
        (doVerify exCfgD exAcceptAll exShaZero exBackend
          exBundleEmpty).bundle_verified exBundleEmpty =
        Except.error Status.notFound
    ∧ Status.notFound ≠ Status.failedPrecondition :=
  ⟨by decide, by decide, rfl, by decide⟩

/-- Claim C7, amended: `GetManifest` fails with `failedPrecondition` exactly
when the `bundle_verified` latch is false — so in every state before a
successful verification (the latch stays false throughout a failed
`DoVerify`) and after `Close`, which clears it.  When the latch is true,
`GetManifest` returns the bundle manifest view; with verification compiled
in this view is guaranteed to exist (payload verification already required
it), while with verification compiled out it can itself fail. -/
theorem C7_get_manifest_iff_latch :
    (∀ b2, getManifest false b2 = Except.error Status.failedPrecondition)
    ∧ (∀ (st : AccessorState) (b2 : UpdateBundle),
        getManifest (closeAccessor st).bundle_verified b2 =
          Except.error Status.failedPrecondition)
    ∧ (∀ (cfg : Config) (E : List Nat → List Nat → List Nat → Bool)
        (S : List Nat → List Nat) (bk : Backend) (b2 : UpdateBundle),
        cfg.disable_bundle_verification = false →
        (doVerify cfg E S bk b2).status ≠ Status.ok →
        (doVerify cfg E S bk b2).bundle_verified = false)
    ∧ (∀ (cfg : Config) (E : List Nat → List Nat → List Nat → Bool)
        (S : List Nat → List Nat) (bk : Backend) (b2 : UpdateBundle),
        cfg.disable_bundle_verification = false →
        (doVerify cfg E S bk b2).status = Status.ok →
        ∃ tm, getManifest (doVerify cfg E S bk b2).bundle_verified b2 =
          Except.ok tm)
    ∧ (∀ (v : Bool) (b2 : UpdateBundle),
        getManifest v b2 = Except.error Status.failedPrecondition ↔
          v = false) := by
  refine ⟨fun b2 => rfl, fun st b2 => rfl, ?_, ?_, ?_⟩
  · intro cfg E S bk b2 hen hne
    cases hbv : (doVerify cfg E S bk b2).bundle_verified with
    | false => rfl
    | true => exact absurd (doVerify_latch_imp cfg E S bk b2 hen hbv) hne
  · intro cfg E S bk b2 hen hok
    obtain ⟨_, _, hps, hbv⟩ := doVerify_ok_stages cfg E S bk b2 hen hok
    obtain ⟨tm, htm, _⟩ := verifyTargetsPayloads_manifest cfg S bk b2 hps
    refine ⟨tm, ?_⟩
    rw [hbv]
    unfold getManifest
    rw [if_neg (by simp)]
    exact htm
  · intro v b2
    cases v with
    | false => simp [getManifest]
    | true =>
      constructor
      · intro h
        unfold getManifest at h
        rw [if_neg (by simp)] at h
        exact absurd (manifestFromBundle_error b2 Status.failedPrecondition h)
          (by decide)
      · intro h
        exact absurd h (by decide)

/-- Claim C7 witness: the happy-path run sets the latch and `GetManifest`
then succeeds. -/
theorem C7_get_manifest_iff_latch_witness :
    ∃ tm, getManifest
        (doVerify exCfgN exAcceptAll exShaZero exBackend exBundle).bundle_verified
        exBundle = Except.ok tm :=
  C7_get_manifest_iff_latch.2.2.2.1 exCfgN exAcceptAll exShaZero exBackend
    exBundle rfl (by decide)

end Pw
